import Mathlib

/-!
Shallow embedding of the blog API server (src/api/index.js) of the
mern-blog repository.

The document store (two mongoose collections, `users` and `posts`) is
modelled as in-memory lists; the local filesystem holding uploaded cover
files is a list of paths; a request's session cookie is modelled by the
outcome of `jwt.verify` on it (absent, present-but-invalid, or valid with
its decoded `{username, id}` claims).  Driver-generated document ids and
the `createdAt` timestamp that mongoose `timestamps` assigns are passed
to the handlers as explicit arguments.  Each Express handler becomes a
pure function from the server state and the request to the new state and
the HTTP response.
-/

/-- A user document: `_id`, username, bcrypt-hashed password
(collection `users`). -/
structure User where
  id : Nat
  username : String
  password : String
  deriving DecidableEq, Repr

/-- A post document: `_id`, title, summary, content, cover-file path,
author reference (`_id` of the owning user) and the creation timestamp.
Modelled from the spec for the fields the schema file (src/api/models/Post.js,
not present under src/) declares: the `author` user reference and the
`timestamps`-generated `createdAt` field ("author reference (owning user id),
creation timestamp"). -/
structure Post where
  id : Nat
  title : String
  summary : String
  content : String
  cover : String
  author : Nat
  createdAt : Nat
  deriving DecidableEq, Repr

/-- The two collections of the document store. -/
structure DB where
  users : List User
  posts : List Post
  deriving DecidableEq, Repr

/-- Server state: the document store plus the set of file paths present on
the local disk (the `fs` module's view). -/
structure ServerState where
  db : DB
  disk : List String
  deriving DecidableEq, Repr

/-- The identity claims `{username, id}` embedded in a signed token. -/
structure TokenInfo where
  username : String
  id : Nat
  deriving DecidableEq, Repr

/-- Outcome of reading `req.cookies.token` and running `jwt.verify` on it:
the cookie is absent, or the token fails signature verification, or it
verifies and decodes to its identity claims. -/
inductive Cookie where
  | noToken : Cookie
  | invalid : Cookie
  | valid : TokenInfo → Cookie
  deriving DecidableEq, Repr

/-- A multipart upload as multer hands it to the handler: the client's
original filename and the temp path multer stored the bytes at. -/
structure UploadedFile where
  originalname : String
  path : String
  deriving DecidableEq, Repr

/-- A post as GET /post returns it: the author reference replaced by the
referenced user's `_id` and username (none when the referenced user does not
exist), as mongoose `.populate('author', ['username'])` produces. -/
structure PopulatedPost where
  id : Nat
  title : String
  summary : String
  content : String
  cover : String
  author : Option (Nat × String)
  createdAt : Nat
  deriving DecidableEq, Repr

/-- The JSON body of a response, one constructor per shape the handlers
produce. -/
inductive Body where
  | userJson : User → Body
  | loginJson : Nat → String → Body
  | textJson : String → Body
  | errorJson : String → Body
  | postJson : Post → Body
  | postListJson : List PopulatedPost → Body
  | successJson : Body
  deriving DecidableEq, Repr

/-- An HTTP response: status code, JSON body, and the token cookie set by
`res.cookie('token', ...)` when the handler sets one. -/
structure Response where
  status : Nat
  body : Body
  tokenCookie : Option TokenInfo
  deriving DecidableEq, Repr

/-- bcrypt.hashSync, modelled as an injective encoding of the password (the
concrete digest is irrelevant to the handlers; `bcryptCompareSync` below is
its matching check, mirroring bcrypt.compareSync). -/
def bcryptHashSync (password : String) : String :=
  "$2a$10$" ++ password

/-- bcrypt.compareSync: does the plaintext match the stored hash. -/
def bcryptCompareSync (password stored : String) : Bool :=
  stored == bcryptHashSync password

/-- fs.existsSync on the modelled disk. -/
def fsExistsSync (disk : List String) (p : String) : Bool :=
  disk.contains p

/-- fs.renameSync: the old path disappears, the new path exists (overwriting
any file previously at the new path). -/
def fsRenameSync (disk : List String) (oldPath newPath : String) : List String :=
  newPath :: disk.filter (fun q => q != oldPath && q != newPath)

/-- fs.unlinkSync: the path no longer exists. -/
def fsUnlinkSync (disk : List String) (p : String) : List String :=
  disk.filter (fun q => q != p)

/-- JavaScript `originalname.split('.')` on the character list: splits at
every occurrence of the dot separator, keeping empty pieces. -/
def splitOnDot : List Char → List (List Char)
  | [] => [[]]
  | c :: cs =>
    if c = '.' then [] :: splitOnDot cs
    else
      match splitOnDot cs with
      | [] => [[c]]
      | w :: ws => (c :: w) :: ws

/-- The extension computation of the upload handlers:
`const parts = originalname.split('.'); const ext = parts[parts.length - 1]`. -/
def extOf (originalname : String) : String :=
  String.mk ((splitOnDot originalname.data).getLastD [])

/-- Post.findById on the posts collection. -/
def findById (posts : List Post) (id : Nat) : Option Post :=
  posts.find? (fun p => p.id == id)

/-- POST /register (src/api/index.js lines 33-45): User.create with the
hashed password; on success returns the created user document.
Modelled from the spec for the failure case: the User schema
(src/api/models/User.js, not present under src/) declares a storage-layer
uniqueness constraint on username ("rejects on duplicate username
(storage-layer uniqueness constraint)"), whose violation the handler's
catch maps to HTTP 400. -/
def postRegister (db : DB) (username password : String) (newId : Nat) :
    DB × Response :=
  if db.users.any (fun u => u.username == username) then
    (db, ⟨400, .errorJson "E11000 duplicate key", none⟩)
  else
    let userDoc : User := ⟨newId, username, bcryptHashSync password⟩
    ({ db with users := db.users ++ [userDoc] }, ⟨200, .userJson userDoc, none⟩)

/-- POST /login (src/api/index.js lines 47-72): User.findOne by username,
bcrypt compare; on success signs `{username, id}` and sets it as the token
cookie; on either failure returns 400 "wrong credentials". -/
def postLogin (db : DB) (username password : String) : Response :=
  match db.users.find? (fun u => u.username == username) with
  | none => ⟨400, .textJson "wrong credentials", none⟩
  | some userDoc =>
    if bcryptCompareSync password userDoc.password then
      ⟨200, .loginJson userDoc.id username, some ⟨username, userDoc.id⟩⟩
    else
      ⟨400, .textJson "wrong credentials", none⟩

/-- POST /post (src/api/index.js lines 92-130): requires a cookie (else 401)
that verifies (else 403) and an uploaded file (else 400); renames the temp
file to carry the original extension and creates the post with
`author = info.id`. -/
def postPost (st : ServerState) (cookie : Cookie) (file : Option UploadedFile)
    (title summary content : String) (newId now : Nat) :
    ServerState × Response :=
  match cookie with
  | .noToken => (st, ⟨401, .errorJson "No token provided", none⟩)
  | .invalid => (st, ⟨403, .errorJson "Invalid token", none⟩)
  | .valid info =>
    match file with
    | none => (st, ⟨400, .errorJson "No file uploaded", none⟩)
    | some f =>
      let newPath := f.path ++ "." ++ extOf f.originalname
      let disk := fsRenameSync st.disk f.path newPath
      let postDoc : Post := ⟨newId, title, summary, content, newPath, info.id, now⟩
      ({ db := { st.db with posts := st.db.posts ++ [postDoc] }, disk := disk },
       ⟨200, .postJson postDoc, none⟩)

/-- PUT /post (src/api/index.js lines 132-163): requires a cookie (else 401)
that verifies (else 403); if a file was uploaded, renames it first; then
looks up the post (else 404), requires the session id to equal the stored
author (else 403), and updateOne writes title
, summary, content and the cover (the new path when a file was uploaded, the
previous cover otherwise).  The response echoes the document as fetched
before the update. -/
def putPost (st : ServerState) (cookie : Cookie) (file : Option UploadedFile)
    (id : Nat) (title summary content : String) : ServerState × Response :=
  match cookie with
  | .noToken => (st, ⟨401, .errorJson "No token provided", none⟩)
  | .invalid => (st, ⟨403, .errorJson "Invalid token", none⟩)
  | .valid info =>
    let newPath : Option String :=
      file.map (fun f => f.path ++ "." ++ extOf f.originalname)
    let disk :=
      match file with
      | none => st.disk
      | some f => fsRenameSync st.disk f.path (f.path ++ "." ++ extOf f.originalname)
    match findById st.db.posts id with
    | none => ({ st with disk := disk }, ⟨404, .textJson "Post not found", none⟩)
    | some postDoc =>
      if postDoc.author == info.id then
        let cover := match newPath with
          | some np => np
          | none => postDoc.cover
        let posts := st.db.posts.map (fun p =>
          if p.id == id then
            { p with
              title := title
              summary := summary
              content := content
              cover := cover }
          else p)
        ({ db := { st.db with posts := posts }, disk := disk },
         ⟨200, .postJson postDoc, none⟩)
      else
        ({ st with disk := disk }, ⟨403, .textJson "You are not the author", none⟩)

/-- Mongoose `.populate('author', ['username'])` on one post. -/
def populateAuthor (users : List User) (p : Post) : PopulatedPost :=
  ⟨p.id, p.title, p.summary, p.content, p.cover,
   (users.find? (fun u => u.id == p.author)).map (fun u => (u.id, u.username)),
   p.createdAt⟩

/-- The sort key of `.sort({ createdAt: -1 })`: newest first. -/
abbrev createdAtDesc (p q : Post) : Prop :=
  q.createdAt ≤ p.createdAt

instance : DecidableRel createdAtDesc :=
  fun p q => Nat.decLe q.createdAt p.createdAt

instance : IsTotal Post createdAtDesc :=
  ⟨fun p q => Nat.le_total q.createdAt p.createdAt⟩

instance : IsTrans Post createdAtDesc :=
  ⟨fun _ _ _ h1 h2 => Nat.le_trans h2 h1⟩

/-- GET /post (src/api/index.js lines 164-175): Post.find() populated with
the author username, sorted by createdAt descending, limited to 20. -/
def getPostList (db : DB) : List PopulatedPost :=
  ((List.insertionSort createdAtDesc db.posts).take 20).map (populateAuthor db.users)

/-- GET /post as a full response. -/
def getPost (db : DB) : Response :=
  ⟨200, .postListJson (getPostList db), none⟩

/-- DELETE /post/:id (src/api/index.js lines 184-215): requires a cookie
(else 401) that verifies (else 403); looks up the post (else 404), requires
the session id to equal the stored author (else 403); unlinks the cover file
when the cover is set and the file exists, then findByIdAndDelete removes
the record. -/
def deletePost (st : ServerState) (cookie : Cookie) (id : Nat) :
    ServerState × Response :=
  match cookie with
  | .noToken => (st, ⟨401, .errorJson "No token provided", none⟩)
  | .invalid => (st, ⟨403, .errorJson "Invalid token", none⟩)
  | .valid info =>
    match findById st.db.posts id with
    | none => (st, ⟨404, .textJson "Post not found", none⟩)
    | some postDoc =>
      if postDoc.author == info.id then
        let disk :=
          if postDoc.cover != "" && fsExistsSync st.disk postDoc.cover then
            fsUnlinkSync st.disk postDoc.cover
          else st.disk
        let posts := st.db.posts.filter (fun p => p.id != id)
        ({ db := { st.db with posts := posts }, disk := disk },
         ⟨200, .successJson, none⟩)
      else
        (st, ⟨403, .textJson "You are not the author", none⟩)

/-! ## Helper lemmas -/

theorem splitOnDot_ne_nil (cs : List Char) : splitOnDot cs ≠ [] := by
  induction cs with
  | nil => simp [splitOnDot]
  | cons c cs ih =>
    simp only [splitOnDot]
    split
    · simp
    · cases h : splitOnDot cs with
      | nil => simp
      | cons w ws => simp

theorem splitOnDot_no_dot (cs : List Char) (h : ∀ c ∈ cs, c ≠ '.') :
    splitOnDot cs = [cs] := by
  induction cs with
  | nil => rfl
  | cons c cs ih =>
    have hc : c ≠ '.' := h c (List.mem_cons_self c cs)
    have hrest : splitOnDot cs = [cs] := ih (fun d hd => h d (List.mem_cons_of_mem c hd))
    simp [splitOnDot, hc, hrest]

theorem extOf_no_dot (s : String) (h : ∀ c ∈ s.data, c ≠ '.') :
    extOf s = s := by
  unfold extOf
  rw [splitOnDot_no_dot s.data h]
  simp

theorem findById_filter_ne (posts : List Post) (id : Nat) :
    findById (posts.filter (fun p => p.id != id)) id = none := by
  unfold findById
  rw [List.find?_eq_none]
  intro p hp
  have := List.of_mem_filter hp
  simpa using this

theorem findById_map_update (posts : List Post) (n : Nat) (g : Post → Post)
    (hg : ∀ q, (g q).id = q.id) :
    ∀ p, findById posts n = some p →
      findById (posts.map fun q => if q.id == n then g q else q) n = some (g p) := by
  intro p hp
  induction posts with
  | nil => simp [findById] at hp
  | cons a l ih =>
    simp only [findById, List.map_cons, List.find?_cons] at hp ⊢
    cases ha : (a.id == n) with
    | true =>
      simp only [ha] at hp
      obtain rfl : a = p := by simpa using hp
      simp [hg, ha]
    | false =>
      simp only [ha] at hp
      have hrec := ih hp
      simp only [findById] at hrec
      simpa [ha] using hrec

/-! ## Claims -/

/-- C1: for every PUT /post and DELETE /post/:id request carrying a valid
session token whose identity id differs from the stored author id of the
targeted existing post, the handler answers 403 and the post store is left
exactly as it was (for DELETE the whole state, disk included, is unchanged;
for PUT the document store is unchanged). -/
theorem nonauthor_update_delete_forbidden
    (st : ServerState) (info : TokenInfo) (file : Option UploadedFile)
    (id : Nat) (title summary content : String) (p : Post)
    (hfind : findById st.db.posts id = some p)
    (hneq : p.author ≠ info.id) :
    ((putPost st (.valid info) file id title summary content).2.status = 403 ∧
     (putPost st (.valid info) file id title summary content).1.db = st.db) ∧
    ((deletePost st (.valid info) id).2.status = 403 ∧
     (deletePost st (.valid info) id).1 = st) := by
  have hb : (p.author == info.id) = false := by simp [hneq]
  refine ⟨⟨?_, ?_⟩, ⟨?_, ?_⟩⟩ <;> simp [putPost, deletePost, hfind, hb]

/-- Concrete instantiation data for witnesses: one post whose author is
user 5. -/
def wPost : Post := ⟨1, "t", "s", "c", "uploads/x.png", 5, 10⟩

/-- Concrete server state holding `wPost` and its cover file on disk. -/
def wState : ServerState := ⟨⟨[⟨5, "alice", bcryptHashSync "pw"⟩], [wPost]⟩, ["uploads/x.png"]⟩

theorem nonauthor_update_delete_forbidden_witness :
    ((putPost wState (.valid ⟨"bob", 6⟩) none 1 "a" "b" "c").2.status = 403 ∧
     (putPost wState (.valid ⟨"bob", 6⟩) none 1 "a" "b" "c").1.db = wState.db) ∧
    ((deletePost wState (.valid ⟨"bob", 6⟩) 1).2.status = 403 ∧
     (deletePost wState (.valid ⟨"bob", 6⟩) 1).1 = wState) :=
  nonauthor_update_delete_forbidden wState ⟨"bob", 6⟩ none 1 "a" "b" "c" wPost
    (by decide) (by decide)

/-- C4: a login with an unknown username, or with a password that does not
match the stored hash of every user bearing that username, is answered by
the one generic 400 "wrong credentials" response, which sets no token
cookie; the two failure modes are indistinguishable. -/
theorem login_generic_failure (db : DB) (username password : String)
    (h : ∀ u ∈ db.users, u.username = username →
      bcryptCompareSync password u.password = false) :
    postLogin db username password = ⟨400, .textJson "wrong credentials", none⟩ := by
  unfold postLogin
  cases hfind : db.users.find? (fun u => u.username == username) with
  | none => rfl
  | some u =>
    have hmem : u ∈ db.users := List.mem_of_find?_eq_some hfind
    have huser : u.username = username := by
      have := List.find?_some hfind
      simpa using this
    have hcmp := h u hmem huser
    simp [hcmp]

theorem login_generic_failure_witness :
    postLogin ⟨[⟨5, "alice", bcryptHashSync "pw"⟩], []⟩ "alice" "wrong" =
      ⟨400, .textJson "wrong credentials", none⟩ :=
  login_generic_failure _ "alice" "wrong" (by decide)

/-- C5 counterexample: a POST /post request whose cookie holds a token that
fails signature verification is answered with status 403, not the claimed
401 (only the missing-cookie case yields 401). -/
theorem create_invalid_token_not_401 :
    (postPost ⟨⟨[], []⟩, []⟩ .invalid none "t" "s" "c" 1 0).2.status = 403 ∧
    (postPost ⟨⟨[], []⟩, []⟩ .invalid none "t" "s" "c" 1 0).2.status ≠ 401 := by
  decide

/-- C5 (amended): a POST /post request with no token cookie is answered 401,
and one whose token fails signature verification is answered 403; in both
cases the server state is unchanged, so no post is created. -/
theorem create_unauthenticated_rejected (st : ServerState)
    (file : Option UploadedFile) (title summary content : String)
    (newId now : Nat) :
    ((postPost st .noToken file title summary content newId now).2.status = 401 ∧
     (postPost st .noToken file title summary content newId now).1 = st) ∧
    ((postPost st .invalid file title summary content newId now).2.status = 403 ∧
     (postPost st .invalid file title summary content newId now).1 = st) :=
  ⟨⟨rfl, rfl⟩, ⟨rfl, rfl⟩⟩

/-- The pointwise document write `updateOne` performs in PUT /post: title,
summary and content from the request; the cover is the renamed upload path
when a file was uploaded, the previously stored cover otherwise. -/
def updatedPost (file : Option UploadedFile) (oldCover : String)
    (title summary content : String) (q : Post) : Post :=
  { q with
    title := title
    summary := summary
    content := content
    cover := match file with
             | some f => f.path ++ "." ++ extOf f.originalname
             | none => oldCover }

/-- Characterization of PUT /post in the author case: the posts collection
is rewritten pointwise at the targeted id, users are untouched, the status
is 200, and the disk reflects only the rename of the uploaded temp file. -/
theorem putPost_author_case
    (st : ServerState) (info : TokenInfo) (file : Option UploadedFile)
    (id : Nat) (title summary content : String) (p : Post)
    (hfind : findById st.db.posts id = some p)
    (hauth : p.author = info.id) :
    (putPost st (.valid info) file id title summary content).1.db.posts =
      st.db.posts.map (fun q =>
        if q.id == id then updatedPost file p.cover title summary content q else q) ∧
    (putPost st (.valid info) file id title summary content).1.db.users = st.db.users ∧
    (putPost st (.valid info) file id title summary content).2.status = 200 ∧
    (putPost st (.valid info) file id title summary content).1.disk =
      (match file with
       | none => st.disk
       | some f => fsRenameSync st.disk f.path (f.path ++ "." ++ extOf f.originalname)) := by
  have hb : (p.author == info.id) = true := by simp [hauth]
  cases file with
  | none => refine ⟨?_, ?_, ?_, ?_⟩ <;> simp [putPost, updatedPost, hfind, hb]
  | some f => refine ⟨?_, ?_, ?_, ?_⟩ <;> simp [putPost, updatedPost, hfind, hb]

/-- C2: a successful PUT /post by the author leaves the post's author field
(and its id and creation timestamp) unchanged: only title, summary, content
and (conditionally) cover are written, and the users collection is
untouched. -/
theorem author_update_preserves_author
    (st : ServerState) (info : TokenInfo) (file : Option UploadedFile)
    (id : Nat) (title summary content : String) (p : Post)
    (hfind : findById st.db.posts id = some p)
    (hauth : p.author = info.id) :
    ∃ p', findById (putPost st (.valid info) file id title summary content).1.db.posts id = some p' ∧
      p'.author = p.author ∧ p'.id = p.id ∧ p'.createdAt = p.createdAt ∧
      p'.title = title ∧ p'.summary = summary ∧ p'.content = content ∧
      (putPost st (.valid info) file id title summary content).1.db.users = st.db.users := by
  obtain ⟨hposts, husers, -, -⟩ :=
    putPost_author_case st info file id title summary content p hfind hauth
  rw [hposts, husers]
  exact ⟨updatedPost file p.cover title summary content p,
    findById_map_update st.db.posts id
      (updatedPost file p.cover title summary content) (fun q => rfl) p hfind,
    rfl, rfl, rfl, rfl, rfl, rfl, rfl⟩

theorem author_update_preserves_author_witness :
    ∃ p', findById (putPost wState (.valid ⟨"alice", 5⟩) none 1 "nt" "ns" "nc").1.db.posts 1 = some p' ∧
      p'.author = wPost.author ∧ p'.id = wPost.id ∧ p'.createdAt = wPost.createdAt ∧
      p'.title = "nt" ∧ p'.summary = "ns" ∧ p'.content = "nc" ∧
      (putPost wState (.valid ⟨"alice", 5⟩) none 1 "nt" "ns" "nc").1.db.users = wState.db.users :=
  author_update_preserves_author wState ⟨"alice", 5⟩ none 1 "nt" "ns" "nc" wPost
    (by decide) (by decide)

/-- C7: a successful PUT /post by the author replaces title, summary and
content with the request's values; the cover is replaced by the renamed
upload path when a file was uploaded and keeps its previous value
otherwise. -/
theorem author_update_replaces_fields
    (st : ServerState) (info : TokenInfo) (file : Option UploadedFile)
    (id : Nat) (title summary content : String) (p : Post)
    (hfind : findById st.db.posts id = some p)
    (hauth : p.author = info.id) :
    ∃ p', findById (putPost st (.valid info) file id title summary content).1.db.posts id = some p' ∧
      p'.title = title ∧ p'.summary = summary ∧ p'.content = content ∧
      p'.cover = (match file with
                  | some f => f.path ++ "." ++ extOf f.originalname
                  | none => p.cover) := by
  obtain ⟨hposts, -, -, -⟩ :=
    putPost_author_case st info file id title summary content p hfind hauth
  rw [hposts]
  exact ⟨updatedPost file p.cover title summary content p,
    findById_map_update st.db.posts id
      (updatedPost file p.cover title summary content) (fun q => rfl) p hfind,
    rfl, rfl, rfl, rfl⟩

theorem author_update_replaces_fields_witness :
    ∃ p', findById (putPost wState (.valid ⟨"alice", 5⟩) none 1 "nt" "ns" "nc").1.db.posts 1 = some p' ∧
      p'.title = "nt" ∧ p'.summary = "ns" ∧ p'.content = "nc" ∧
      p'.cover = (match (none : Option UploadedFile) with
                  | some f => f.path ++ "." ++ extOf f.originalname
                  | none => wPost.cover) :=
  author_update_replaces_fields wState ⟨"alice", 5⟩ none 1 "nt" "ns" "nc" wPost
    (by decide) (by decide)

/-- C9: when the uploaded file's original name contains no dot, the computed
extension is the whole original name, so both the post created by POST /post
and the post updated by PUT /post store the temp path followed by a dot and
the whole original filename as the cover. -/
theorem no_dot_extension_whole_name
    (st st2 : ServerState) (info info2 : TokenInfo) (f : UploadedFile)
    (title summary content : String) (newId now : Nat) (id : Nat) (p : Post)
    (hnodot : ∀ c ∈ f.originalname.data, c ≠ '.')
    (hfind : findById st2.db.posts id = some p)
    (hauth : p.author = info2.id) :
    extOf f.originalname = f.originalname ∧
    (∃ postDoc : Post,
       (postPost st (.valid info) (some f) title summary content newId now).2.body =
         .postJson postDoc ∧
       postDoc.cover = f.path ++ "." ++ f.originalname) ∧
    (∃ p', findById (putPost st2 (.valid info2) (some f) id title summary content).1.db.posts id = some p' ∧
       p'.cover = f.path ++ "." ++ f.originalname) := by
  have hext := extOf_no_dot f.originalname hnodot
  obtain ⟨hposts, -, -, -⟩ :=
    putPost_author_case st2 info2 (some f) id title summary content p hfind hauth
  refine ⟨hext,
    ⟨⟨newId, title, summary, content, f.path ++ "." ++ extOf f.originalname, info.id, now⟩,
     rfl, ?_⟩, ?_⟩
  · simp [hext]
  · rw [hposts]
    refine ⟨updatedPost (some f) p.cover title summary content p,
      findById_map_update st2.db.posts id
        (updatedPost (some f) p.cover title summary content) (fun q => rfl) p hfind, ?_⟩
    simp [updatedPost, hext]

theorem no_dot_extension_whole_name_witness :
    extOf "coverpng" = "coverpng" ∧
    (∃ postDoc : Post,
       (postPost wState (.valid ⟨"alice", 5⟩) (some ⟨"coverpng", "uploads/tmp1"⟩) "t" "s" "c" 2 11).2.body =
         .postJson postDoc ∧
       postDoc.cover = "uploads/tmp1" ++ "." ++ "coverpng") ∧
    (∃ p', findById (putPost wState (.valid ⟨"alice", 5⟩) (some ⟨"coverpng", "uploads/tmp1"⟩) 1 "t" "s" "c").1.db.posts 1 = some p' ∧
       p'.cover = "uploads/tmp1" ++ "." ++ "coverpng") :=
  no_dot_extension_whole_name wState wState ⟨"alice", 5⟩ ⟨"alice", 5⟩
    ⟨"coverpng", "uploads/tmp1"⟩ "t" "s" "c" 2 11 1 wPost
    (by decide) (by decide) (by decide)

/-- C10: a successful PUT /post that uploads a new cover file does not
delete the previous cover file from disk: the old file remains present, and
the post's cover field is redirected to the new path. -/
theorem update_keeps_old_cover_on_disk
    (st : ServerState) (info : TokenInfo) (f : UploadedFile)
    (id : Nat) (title summary content : String) (p : Post)
    (hfind : findById st.db.posts id = some p)
    (hauth : p.author = info.id)
    (hne1 : p.cover ≠ f.path)
    (hne2 : p.cover ≠ f.path ++ "." ++ extOf f.originalname)
    (hmem : p.cover ∈ st.disk) :
    p.cover ∈ (putPost st (.valid info) (some f) id title summary content).1.disk ∧
    ∃ p', findById (putPost st (.valid info) (some f) id title summary content).1.db.posts id = some p' ∧
      p'.cover = f.path ++ "." ++ extOf f.originalname := by
  obtain ⟨hposts, -, -, hdisk⟩ :=
    putPost_author_case st info (some f) id title summary content p hfind hauth
  constructor
  · rw [hdisk]
    simp [fsRenameSync, List.mem_filter, hmem, hne1, hne2]
  · rw [hposts]
    exact ⟨updatedPost (some f) p.cover title summary content p,
      findById_map_update st.db.posts id
        (updatedPost (some f) p.cover title summary content) (fun q => rfl) p hfind,
      rfl⟩

theorem update_keeps_old_cover_on_disk_witness :
    wPost.cover ∈ (putPost wState (.valid ⟨"alice", 5⟩) (some ⟨"a.png", "uploads/tmp2"⟩) 1 "t" "s" "c").1.disk ∧
    ∃ p', findById (putPost wState (.valid ⟨"alice", 5⟩) (some ⟨"a.png", "uploads/tmp2"⟩) 1 "t" "s" "c").1.db.posts 1 = some p' ∧
      p'.cover = "uploads/tmp2" ++ "." ++ extOf "a.png" :=
  update_keeps_old_cover_on_disk wState ⟨"alice", 5⟩ ⟨"a.png", "uploads/tmp2"⟩
    1 "t" "s" "c" wPost (by decide) (by decide) (by decide) (by decide) (by decide)

/-- C3: GET /post returns at most 20 posts, sorted by creation timestamp
descending (newest first), and every returned item is a post of the store
with the author's username joined in by the populate step. -/
theorem post_list_bounded_sorted_populated (db : DB) :
    (getPostList db).length ≤ 20 ∧
    List.Sorted (fun a b : PopulatedPost => b.createdAt ≤ a.createdAt) (getPostList db) ∧
    ∀ q ∈ getPostList db, ∃ p ∈ db.posts, q = populateAuthor db.users p ∧
      q.author = (db.users.find? (fun u => u.id == p.author)).map (fun u => (u.id, u.username)) := by
  refine ⟨?_, ?_, ?_⟩
  · simp only [getPostList, List.length_map, List.length_take]
    omega
  · have hs : List.Sorted createdAtDesc (List.insertionSort createdAtDesc db.posts) :=
      List.sorted_insertionSort createdAtDesc db.posts
    have ht : List.Pairwise createdAtDesc ((List.insertionSort createdAtDesc db.posts).take 20) :=
      List.Pairwise.sublist (List.take_sublist 20 _) hs
    exact List.Pairwise.map (populateAuthor db.users) (fun a b hab => hab) ht
  · intro q hq
    simp only [getPostList, List.mem_map] at hq
    obtain ⟨p, hp, rfl⟩ := hq
    have hp2 : p ∈ List.insertionSort createdAtDesc db.posts :=
      List.mem_of_mem_take hp
    have hp3 : p ∈ db.posts :=
      (List.perm_insertionSort createdAtDesc db.posts).mem_iff.mp hp2
    exact ⟨p, hp3, rfl, rfl⟩

/-- C6: a successful DELETE /post/:id by the post's author removes the
post's cover file from the disk (whenever the cover is a nonempty path) and
deletes the post record from the store, answering 200. -/
theorem author_delete_removes_cover_and_record
    (st : ServerState) (info : TokenInfo) (id : Nat) (p : Post)
    (hfind : findById st.db.posts id = some p)
    (hauth : p.author = info.id) :
    findById (deletePost st (.valid info) id).1.db.posts id = none ∧
    (p.cover ≠ "" → p.cover ∉ (deletePost st (.valid info) id).1.disk) ∧
    (deletePost st (.valid info) id).2.status = 200 := by
  have hb : (p.author == info.id) = true := by simp [hauth]
  refine ⟨?_, ?_, ?_⟩
  · simp only [deletePost, hfind, hb]
    exact findById_filter_ne st.db.posts id
  · intro hc
    have hcb : (p.cover != "") = true := by simp [hc]
    by_cases hmem : p.cover ∈ st.disk
    · have hex : fsExistsSync st.disk p.cover = true := by
        simp [fsExistsSync, List.elem_iff, hmem]
      simp [deletePost, hfind, hb, hcb, hex, fsUnlinkSync, List.mem_filter]
    · have hex : fsExistsSync st.disk p.cover = false := by
        simp [fsExistsSync, List.elem_iff, hmem]
      simp [deletePost, hfind, hb, hcb, hex, hmem]
  · simp [deletePost, hfind, hb]

theorem author_delete_removes_cover_and_record_witness :
    findById (deletePost wState (.valid ⟨"alice", 5⟩) 1).1.db.posts 1 = none ∧
    (wPost.cover ≠ "" → wPost.cover ∉ (deletePost wState (.valid ⟨"alice", 5⟩) 1).1.disk) ∧
    (deletePost wState (.valid ⟨"alice", 5⟩) 1).2.status = 200 :=
  author_delete_removes_cover_and_record wState ⟨"alice", 5⟩ 1 wPost
    (by decide) (by decide)

/-- C8: registering a fresh username succeeds, storing the bcrypt hash of
the password and returning the created user record; registering the same
username a second time is rejected by the uniqueness constraint with
status 400 and leaves the users collection unchanged. -/
theorem register_duplicate_username
    (db : DB) (username p1 p2 : String) (id1 id2 : Nat)
    (h : ∀ u ∈ db.users, u.username ≠ username) :
    (postRegister db username p1 id1).2.status = 200 ∧
    (postRegister db username p1 id1).2.body = .userJson ⟨id1, username, bcryptHashSync p1⟩ ∧
    (postRegister (postRegister db username p1 id1).1 username p2 id2).2.status = 400 ∧
    (postRegister (postRegister db username p1 id1).1 username p2 id2).1 =
      (postRegister db username p1 id1).1 := by
  have hany : db.users.any (fun u => u.username == username) = false := by
    rw [List.any_eq_false]
    intro u hu
    simp [h u hu]
  refine ⟨?_, ?_, ?_, ?_⟩ <;> simp [postRegister, hany]

theorem register_duplicate_username_witness :
    (postRegister ⟨[], []⟩ "bob" "pw1" 7).2.status = 200 ∧
    (postRegister ⟨[], []⟩ "bob" "pw1" 7).2.body = .userJson ⟨7, "bob", bcryptHashSync "pw1"⟩ ∧
    (postRegister (postRegister ⟨[], []⟩ "bob" "pw1" 7).1 "bob" "pw2" 8).2.status = 400 ∧
    (postRegister (postRegister ⟨[], []⟩ "bob" "pw1" 7).1 "bob" "pw2" 8).1 =
      (postRegister ⟨[], []⟩ "bob" "pw1" 7).1 :=
  register_duplicate_username ⟨[], []⟩ "bob" "pw1" "pw2" 7 8 (by simp)
